import Mathlib

/-!
Verification development for the PseudoLookup multi-table lookup control.

The TypeScript sources are embedded shallowly:
* string manipulation (`split`, `trim`, `indexOf`, `substring`, `replace`,
  `toLowerCase`, regex tests) is modelled on `List Char` via the helper
  functions below, with `String` wrappers built from `String.data`;
* the asynchronous `loadInitialData` routine of the control class is modelled
  as a function over an explicit observation schedule (the list of bound-field
  values seen by the re-read performed when a resolution completes);
* the Dataverse Web API is modelled as an oracle
  `String → String → WebApiResponse`.

JS `toLowerCase` is modelled on the ASCII range (table `lowerPairs`), and the
JS whitespace class by `wsChars`; the identifiers and type tags handled by the
control are ASCII tokens, for which these agree with JavaScript.
-/

/-- Character set of the JS whitespace class used by `String.prototype.trim`. -/
def wsChars : List Char :=
  [' ', '\t', '\n', '\r', '\x0b', '\x0c', '\u00A0', '\u2028', '\u2029', '\uFEFF']

/-- Whether `c` is whitespace for the purposes of JS `trim`. -/
def jsWs (c : Char) : Bool := wsChars.contains c

/-- ASCII upper-to-lower table: models `toLowerCase` on the ASCII range. -/
def lowerPairs : List (Char × Char) :=
  [('A','a'), ('B','b'), ('C','c'), ('D','d'), ('E','e'), ('F','f'), ('G','g'),
   ('H','h'), ('I','i'), ('J','j'), ('K','k'), ('L','l'), ('M','m'), ('N','n'),
   ('O','o'), ('P','p'), ('Q','q'), ('R','r'), ('S','s'), ('T','t'), ('U','u'),
   ('V','v'), ('W','w'), ('X','x'), ('Y','y'), ('Z','z')]

/-- Lowercase a single character (JS `toLowerCase`, ASCII). -/
def jsToLower (c : Char) : Char := (lowerPairs.lookup c).getD c

/-- Lowercase a character list (JS `toLowerCase`). -/
def lowerL (l : List Char) : List Char := l.map jsToLower

/-- `true` unless the character is `{` or `}`.  Models the character class of
the regex `/[{}]/g` used by `isValidGuid` and `normalizeGuid`. -/
def notBrace (c : Char) : Bool := !(c = '{' || c = '}')

/-- Remove every `{` and `}` (JS `replace(/[{}]/g, '')`). -/
def stripBraces (l : List Char) : List Char := l.filter notBrace

/-- The character class `[0-9a-fA-F]` of the GUID regex. -/
def hexDigits : List Char :=
  ['A','B','C','D','E','F', 'a','b','c','d','e','f',
   '9','8','7','6','5','4','3','2','1','0']

/-- Whether `c` matches `[0-9a-fA-F]`. -/
def isHexDigit (c : Char) : Bool := hexDigits.contains c

/-- JS `split(sep)` on a character list: always returns at least one piece. -/
def splitSep (sep : Char) : List Char → List (List Char)
  | [] => [[]]
  | c :: cs =>
    let r := splitSep sep cs
    if c = sep then [] :: r
    else
      match r with
      | [] => [[c]]
      | h :: t => (c :: h) :: t

/-- Join pieces with a separator character (inverse of `splitSep`). -/
def joinSep (sep : Char) : List (List Char) → List Char
  | [] => []
  | [x] => x
  | x :: xs => x ++ sep :: joinSep sep xs

/-- JS `trim`: drop leading and trailing whitespace. -/
def trimL (l : List Char) : List Char :=
  ((l.dropWhile jsWs).reverse.dropWhile jsWs).reverse

/-- Split a list at the first `:` (JS `indexOf(':')` + two `substring`s);
`none` when there is no colon, mirroring `indexOf === -1`. -/
def splitAtFirstColon : List Char → Option (List Char × List Char)
  | [] => none
  | c :: cs =>
    if c = ':' then some ([], cs)
    else
      match splitAtFirstColon cs with
      | none => none
      | some (a, b) => some (c :: a, b)

/-- The body of the GUID regex
`^[0-9a-fA-F]{8}-[0-9a-fA-F]{4}-[0-9a-fA-F]{4}-[0-9a-fA-F]{4}-[0-9a-fA-F]{12}$`:
splitting on `-` must give exactly the groups 8-4-4-4-12 and every character is
a hex digit or a hyphen. -/
def guidShape (l : List Char) : Bool :=
  match splitSep '-' l with
  | [a, b, c, d, e] =>
    a.length = 8 && b.length = 4 && c.length = 4 && d.length = 4 && e.length = 12
      && l.all fun ch => ch = '-' || isHexDigit ch
  | _ => false

/-- `isValidGuid` from `dataUtils`: falsy input is rejected, then braces are
stripped anywhere in the string and the 8-4-4-4-12 hex grammar is tested. -/
def isValidGuid (value : String) : Bool :=
  if value = "" then false
  else guidShape (stripBraces value.data)

/-- `normalizeGuid` on character lists: strip braces, lowercase. -/
def normalizeL (l : List Char) : List Char := lowerL (stripBraces l)

/-- `normalizeGuid` from `dataUtils`. -/
def normalizeGuid (guid : String) : String :=
  if guid = "" then "" else ⟨normalizeL guid.data⟩

/-- JS `toLowerCase` on strings. -/
def toLowerS (s : String) : String := ⟨lowerL s.data⟩

/-- `IParsedRecord` from `types`: a parsed `id:table` pair without a name. -/
structure IParsedRecord where
  id : String
  table : String
deriving DecidableEq, Repr

/-- One iteration of the `parseBoundValue` loop body: split the segment at the
first colon, trim both sides, validate, and emit the canonicalized record
(`continue` is `none`). -/
def parseEntryL (entry : List Char) : Option IParsedRecord :=
  match splitAtFirstColon entry with
  | none => none
  | some (pre, post) =>
    let id : String := ⟨trimL pre⟩
    let table : String := ⟨trimL post⟩
    if isValidGuid id && table.length > 0 then
      some { id := normalizeGuid id, table := toLowerS table }
    else none

/-- `parseBoundValue` from `dataUtils`. -/
def parseBoundValue (boundValue : String) : List IParsedRecord :=
  if trimL boundValue.data = [] then []
  else
    let entries := (splitSep ';' boundValue.data).filter fun e => !(trimL e = [])
    entries.filterMap parseEntryL

/-- `ILookupRecord` from `types`; `isLoading?: boolean` (absent = `false`,
placeholders set it `true`). -/
structure ILookupRecord where
  id : String
  table : String
  name : String
  iconUrl : Option String := none
  isLoading : Bool := false
deriving DecidableEq, Repr

/-- `serializeToBoundValue` from `dataUtils`. -/
def serializeToBoundValue (records : List ILookupRecord) : String :=
  if records.isEmpty then ""
  else ⟨joinSep ';' (records.map fun record =>
    (normalizeGuid record.id).data ++ ':' :: (toLowerS record.table).data)⟩

/-- `removeRecordById` from `dataUtils`: filter out every record whose
normalized GUID equals the normalized argument. -/
def removeRecordById (recordId : String) (selectedRecords : List ILookupRecord) :
    List ILookupRecord :=
  let normalizedId := normalizeGuid recordId
  selectedRecords.filter fun record => !(normalizeGuid record.id = normalizedId)

/-- A JS `number | string` value, as carried by Web API error `code` /
`errorCode` fields. -/
inductive JsVal where
  | num (n : Int)
  | str (s : String)
deriving DecidableEq, Repr

/-- Response of one `context.webAPI.retrieveRecord` call, as observed by the
`try`/`catch` in `retrieveRecord`:
* `ok fields` — the call resolved to a (truthy) record object;
* `nullResult` — the call resolved to a falsy value (`if (result)` fails);
* `err code errorCode message` — the call rejected with an error object. -/
inductive WebApiResponse where
  | ok (fields : List (String × String))
  | nullResult
  | err (code : Option JsVal) (errorCode : Option JsVal) (message : Option String)
deriving DecidableEq, Repr

/-- The Web API oracle: table name and (normalized) record id to response. -/
def WebApi := String → String → WebApiResponse

/-- `COMMON_PRIMARY_NAME_FIELDS` from `types`. -/
def COMMON_PRIMARY_NAME_FIELDS : List (String × String) :=
  [("contact", "fullname"), ("account", "name"), ("lead", "fullname"),
   ("opportunity", "name"), ("systemuser", "fullname"), ("team", "name"),
   ("businessunit", "name"), ("task", "subject"), ("phonecall", "subject"),
   ("email", "subject"), ("appointment", "subject"), ("letter", "subject"),
   ("fax", "subject"), ("activitypointer", "subject"),
   ("annotation", "subject"), ("incident", "title"),
   ("knowledgearticle", "title"), ("queue", "name"), ("product", "name"),
   ("pricelevel", "name"), ("campaign", "name"), ("list", "listname"),
   ("goal", "title"), ("transactioncurrency", "currencyname")]

/-- `getPrimaryNameField` from `dataUtils`: common mapping with fallback
`"name"`. -/
def getPrimaryNameField (tableName : String) : String :=
  match COMMON_PRIMARY_NAME_FIELDS.lookup (toLowerS tableName) with
  | some f => f
  | none => "name"

/-- Whether the substring `pat` occurs in `l` (JS `String.prototype.includes`),
via an initial-match helper. -/
def leadMatch : List Char → List Char → Bool
  | [], _ => true
  | _ :: _, [] => false
  | p :: ps, c :: cs => p = c && leadMatch ps cs

/-- JS `includes`: does `pat` occur anywhere in `l`? -/
def strIncludes (l pat : List Char) : Bool :=
  if leadMatch pat l then true
  else
    match l with
    | [] => false
    | _ :: t => strIncludes t pat

/-- The error classes that `retrieveRecord` treats as "record absent or
inaccessible" and silently maps to `null`: `code ?? errorCode` equal to `404`,
`'0x80040217'`, `403`, `'0x80040220'`, or a message containing
`does not exist`. -/
def isSilentRetrieveError (code errorCode : Option JsVal) (message : Option String) : Bool :=
  let ec := match code with
    | some v => some v
    | none => errorCode
  let errorMessage := message.getD ""
  ec = some (.num 404) || ec = some (.str "0x80040217")
    || strIncludes errorMessage.data "does not exist".data
    || ec = some (.num 403) || ec = some (.str "0x80040220")

/-- The `??` chain selecting the display name out of the retrieved record:
`result[primaryNameField] ?? name ?? fullname ?? subject ?? title ??
'Unnamed Record'`. -/
def pickDisplayName (fields : List (String × String)) (primaryNameField : String) : String :=
  match fields.lookup primaryNameField with
  | some v => v
  | none =>
    match fields.lookup "name" with
    | some v => v
    | none =>
      match fields.lookup "fullname" with
      | some v => v
      | none =>
        match fields.lookup "subject" with
        | some v => v
        | none =>
          match fields.lookup "title" with
          | some v => v
          | none => "Unnamed Record"

/-- `retrieveRecord` from `webApiUtils`.  Note that the `catch` block returns
`null` on BOTH sides of its error classification: the not-found / forbidden
classes return `null` silently, and every other failure is logged with
`console.error` and then also returns `null`. -/
def retrieveRecord (api : WebApi) (tableName recordId : String) : Option ILookupRecord :=
  let primaryNameField := getPrimaryNameField tableName
  let normalizedId := normalizeGuid recordId
  match api tableName normalizedId with
  | .ok fields =>
    some { id := normalizedId, table := toLowerS tableName,
           name := pickDisplayName fields primaryNameField }
  | .nullResult => none
  | .err code errorCode message =>
    if isSilentRetrieveError code errorCode message then none
    else none

/-- `IRecordRetrievalResult` from `types`. -/
structure IRecordRetrievalResult where
  validRecords : List ILookupRecord
  deletedRecordIds : List String
  hasDeletedRecords : Bool
deriving DecidableEq, Repr

/-- `retrieveAllRecords` from `webApiUtils`: resolve each parsed record,
partition into found records (in input order) and deleted ids.  `Promise.all`
preserves input order, and `retrieveRecord` never rejects, so the call always
settles. -/
def retrieveAllRecords (api : WebApi) (parsedRecords : List IParsedRecord) :
    IRecordRetrievalResult :=
  if parsedRecords.isEmpty then
    { validRecords := [], deletedRecordIds := [], hasDeletedRecords := false }
  else
    let results := parsedRecords.map fun parsed =>
      (parsed, retrieveRecord api parsed.table parsed.id)
    let validRecords := results.filterMap fun pr => pr.2
    let deletedRecordIds := results.filterMap fun pr =>
      match pr.2 with
      | some _ => none
      | none => some pr.1.id
    { validRecords := validRecords, deletedRecordIds := deletedRecordIds,
      hasDeletedRecords := !deletedRecordIds.isEmpty }

/-- The mutable fields of the `PseudoLookup` control class that the claims
are about (selection, error, output values, snapshot, busy flag, version). -/
structure ControlState where
  selectedRecords : List ILookupRecord
  errorMessage : Option String
  boundFieldValue : String
  recordNamesValue : String
  isInitialized : Bool
  lastBoundValue : Option String
  isLoadingInProgress : Bool
  stateVersion : Nat
deriving DecidableEq, Repr

/-- The field initializers of the control class. -/
def initControlState : ControlState :=
  { selectedRecords := [], errorMessage := none, boundFieldValue := "",
    recordNamesValue := "", isInitialized := false, lastBoundValue := none,
    isLoadingInProgress := false, stateVersion := 0 }

/-- `triggerRerender`: increment the state version (the updater callback is a
notification side effect with no further state change). -/
def triggerRerender (s : ControlState) : ControlState :=
  { s with stateVersion := s.stateVersion + 1 }

/-- A placeholder badge created for a parsed record while its name loads. -/
def mkPlaceholder (record : IParsedRecord) : ILookupRecord :=
  { id := record.id, table := record.table, name := "Loading...",
    isLoading := true }

/-- `serializeRecordNames`: semicolon-joined names of the non-loading
records. -/
def serializeRecordNames (records : List ILookupRecord) : String :=
  if records.isEmpty then ""
  else ⟨joinSep ';' ((records.filter fun r => !r.isLoading).map fun r => r.name.data)⟩

/-- Where the synchronous prefix of `loadInitialData` ends: either the call
returned before its `await retrieveAllRecords` (`done`), or it suspended with
the placeholder state published and the retrieval result pending
(`inFlight`). -/
inductive LoadPhase where
  | done (s : ControlState)
  | inFlight (s2 : ControlState) (result : IRecordRetrievalResult)

/-- The part of `loadInitialData` up to and including the
`await retrieveAllRecords(...)`:
1. return if a load is already in progress;
2. an empty / whitespace bound value clears the selection (one rerender, no
   `finally` because this path is before the `try`);
3. return if the value equals `lastBoundValue` and the control is initialized;
4. otherwise record the snapshot, set the busy flag, clear the error, parse;
   an empty parse clears the selection — this path runs its explicit
   `triggerRerender()` and then returns out of the `try`, so the `finally`
   block runs a second `triggerRerender()`;
5. otherwise publish the placeholder badges (one rerender) and issue the
   retrieval. -/
def loadBegin (api : WebApi) (s : ControlState) (boundValue : String) : LoadPhase :=
  if s.isLoadingInProgress then .done s
  else if trimL boundValue.data = [] then
    .done (triggerRerender { s with
      selectedRecords := [], recordNamesValue := "",
      boundFieldValue := "", isInitialized := true, lastBoundValue := some "" })
  else if s.lastBoundValue = some boundValue ∧ s.isInitialized then .done s
  else
    let s1 := { s with lastBoundValue := some boundValue,
                       isLoadingInProgress := true, errorMessage := none }
    let parsedRecords := parseBoundValue boundValue
    if parsedRecords.isEmpty then
      .done (triggerRerender (triggerRerender { s1 with
        selectedRecords := [], recordNamesValue := "", boundFieldValue := "",
        isLoadingInProgress := false, isInitialized := true }))
    else
      let s2 := triggerRerender { s1 with
        selectedRecords := parsedRecords.map mkPlaceholder, isInitialized := true }
      .inFlight s2 (retrieveAllRecords api parsedRecords)

/-- The completion handler of `loadInitialData` when the staleness check
passes: commit the resolved records, re-serialize the names, push the shrunken
bound value out when records were deleted, then the `finally` block clears the
busy flag and rerenders. -/
def commitResults (s2 : ControlState) (result : IRecordRetrievalResult) : ControlState :=
  let s3 := { s2 with selectedRecords := result.validRecords,
                      recordNamesValue := serializeRecordNames result.validRecords }
  let s4 :=
    if result.hasDeletedRecords then
      let bv := serializeToBoundValue result.validRecords
      { s3 with boundFieldValue := bv, lastBoundValue := some bv }
    else s3
  triggerRerender { s4 with isLoadingInProgress := false }

/-- `loadInitialData`, driven by the observation schedule `obs`: the value the
re-read `this.context.parameters.boundField?.raw ?? ''` returns at each
completion point (an exhausted schedule means the value did not change).  On a
mismatch the code clears the busy flag and re-invokes itself on the current
value; its outer `finally` (which only touches `isLoadingInProgress` and the
version counter, and therefore commutes with the remainder of the inner call)
is applied after the chained call. -/
def loadInitialData (api : WebApi) : List String → ControlState → String → ControlState
  | obs, s, boundValue =>
    match loadBegin api s boundValue with
    | .done sDone => sDone
    | .inFlight s2 result =>
      match obs with
      | [] => commitResults s2 result
      | cur :: rest =>
        if cur = boundValue then commitResults s2 result
        else
          let s4 := loadInitialData api rest { s2 with isLoadingInProgress := false } cur
          triggerRerender { s4 with isLoadingInProgress := false }

/-- A `ComponentFramework.LookupValue` coming back from the lookup dialog. -/
structure LookupValue where
  id : String
  entityType : String
  name : Option String
deriving DecidableEq, Repr

/-- The conversion at the top of `processLookupResults`: dialog results to
`ILookupRecord`s (normalized id, lowercased table, icon from the cache). -/
def newRecordsOf (tableIconCache : String → Option String)
    (results : List LookupValue) : List ILookupRecord :=
  results.map fun result =>
    { id := normalizeGuid result.id, table := toLowerS result.entityType,
      name := result.name.getD "Unnamed Record",
      iconUrl := tableIconCache (toLowerS result.entityType) }

/-- The deduplication step of the multi-select branch: keep the new records
whose normalized id is not already among the selected records. -/
def uniqueNewOf (selectedRecords newRecords : List ILookupRecord) : List ILookupRecord :=
  let existingIds := selectedRecords.map fun r => normalizeGuid r.id
  newRecords.filter fun r => !(existingIds.contains (normalizeGuid r.id))

/-- The interpolated "too many selections" message, with the exact plural
handling of the template literal. -/
def tooManyMessage (maxSelections excessCount : Int) : String :=
  "Too many selections. Only the first " ++ toString maxSelections ++ " record"
    ++ (if maxSelections > 1 then "s were" else " was") ++ " retained ("
    ++ toString excessCount ++ " removed)."

/-- `processLookupResults`: convert the dialog results; in multi-select mode
append the deduplicated new records and truncate to `maxSelections` (setting
the "too many" message) when the configured positive maximum is exceeded; in
single-select mode replace the selection by the first result.  Then
re-serialize both outputs, move the snapshot, notify, rerender. -/
def processLookupResults (tableIconCache : String → Option String)
    (maxSelections : Option Int) (results : List LookupValue)
    (allowMultiSelect : Bool) (s : ControlState) : ControlState :=
  let newRecords := newRecordsOf tableIconCache results
  let s1 :=
    if allowMultiSelect then
      let uniqueNewRecords := uniqueNewOf s.selectedRecords newRecords
      let combinedRecords := s.selectedRecords ++ uniqueNewRecords
      match maxSelections with
      | some m =>
        if 0 < m ∧ m < (combinedRecords.length : Int) then
          { s with selectedRecords := combinedRecords.take m.toNat,
                   errorMessage := some (tooManyMessage m ((combinedRecords.length : Int) - m)) }
        else { s with selectedRecords := combinedRecords }
      | none => { s with selectedRecords := combinedRecords }
    else
      { s with selectedRecords := newRecords.take 1 }
  let bv := serializeToBoundValue s1.selectedRecords
  triggerRerender { s1 with
    boundFieldValue := bv,
    recordNamesValue := serializeRecordNames s1.selectedRecords,
    lastBoundValue := some bv }

/-- `handleRemoveRecord`: filter the record out, re-serialize both outputs,
move the snapshot, clear the error message, notify, rerender. -/
def handleRemoveRecord (recordId : String) (s : ControlState) : ControlState :=
  let recs := removeRecordById recordId s.selectedRecords
  let bv := serializeToBoundValue recs
  triggerRerender { s with
    selectedRecords := recs, boundFieldValue := bv,
    recordNamesValue := serializeRecordNames recs, lastBoundValue := some bv,
    errorMessage := none }

/-- Normalized identifiers of the non-pending records of a list. -/
def npIds (records : List ILookupRecord) : List String :=
  (records.filter fun r => !r.isLoading).map fun r => normalizeGuid r.id

/-- Normalized identifiers of the non-pending (badge-visible, serialized)
entries of the selection: the quantity the uniqueness invariant of the spec is
about. -/
def nonPendingNormalizedIds (s : ControlState) : List String :=
  npIds s.selectedRecords

/-- A grammar-valid identifier part of a bound-value segment: an exact
8-4-4-4-12 hex token, optionally brace-wrapped (the "valid bound string"
grammar of the spec, §6). -/
def ValidIdPart (p : List Char) : Prop :=
  ∃ core : List Char, guidShape core = true ∧ (p = core ∨ p = '{' :: (core ++ ['}']))

/-- A valid type part of a bound-value segment: a non-empty token (no
whitespace, and no `;`, which would break the segment structure). -/
def ValidTypePart (t : List Char) : Prop :=
  t ≠ [] ∧ ∀ c ∈ t, jsWs c = false ∧ c ≠ ';'

section HelperLemmas

/-- A successful association-list lookup comes from a member pair. -/
theorem lookup_mem {α β : Type} [BEq α] [LawfulBEq α] {l : List (α × β)} {a : α}
    {b : β} (h : l.lookup a = some b) : (a, b) ∈ l := by
  induction l with
  | nil => simp [List.lookup] at h
  | cons p t ih =>
    obtain ⟨k, v⟩ := p
    rw [List.lookup] at h
    cases hk : a == k with
    | true =>
      rw [hk] at h
      simp only [if_pos] at h
      cases h
      have hak : a = k := eq_of_beq hk
      subst hak
      exact List.mem_cons_self _ _
    | false =>
      rw [hk] at h
      simp only [Bool.false_eq_true, if_false] at h
      exact List.mem_cons_of_mem _ (ih h)

/-- ASCII lowercasing is idempotent. -/
theorem jsToLower_idem (c : Char) : jsToLower (jsToLower c) = jsToLower c := by
  cases hl : lowerPairs.lookup c with
  | none => simp [jsToLower, hl]
  | some d =>
    have hd : (c, d) ∈ lowerPairs := lookup_mem hl
    have hall : ∀ p ∈ lowerPairs, lowerPairs.lookup p.2 = none := by decide
    simp [jsToLower, hl, hall _ hd]

/-- Lowercasing never produces a brace. -/
theorem notBrace_jsToLower {c : Char} (h : notBrace c = true) :
    notBrace (jsToLower c) = true := by
  cases hl : lowerPairs.lookup c with
  | none => simpa [jsToLower, hl]
  | some d =>
    have hd : (c, d) ∈ lowerPairs := lookup_mem hl
    have hall : ∀ p ∈ lowerPairs, notBrace p.2 = true := by decide
    simp only [jsToLower, hl, Option.getD_some]
    exact hall _ hd

/-- Lowercasing a character list is idempotent. -/
theorem lowerL_idem (l : List Char) : lowerL (lowerL l) = lowerL l := by
  unfold lowerL
  rw [List.map_map]
  exact List.map_congr_left fun c _ => jsToLower_idem c

/-- Normalization (brace-strip + lowercase) is idempotent. -/
theorem normalizeL_idem (l : List Char) : normalizeL (normalizeL l) = normalizeL l := by
  unfold normalizeL
  have h1 : stripBraces (lowerL (stripBraces l)) = lowerL (stripBraces l) := by
    unfold stripBraces lowerL
    refine List.filter_eq_self.mpr ?_
    intro a ha
    obtain ⟨c, hc, rfl⟩ := List.mem_map.mp ha
    exact notBrace_jsToLower (List.of_mem_filter hc)
  rw [h1, lowerL_idem]

/-- The data of a normalized GUID string. -/
theorem normalizeGuid_data (s : String) : (normalizeGuid s).data = normalizeL s.data := by
  unfold normalizeGuid
  by_cases h : s = ""
  · subst h; rfl
  · simp [h]

/-- String-level normalization is idempotent. -/
theorem normalizeGuid_idem (s : String) : normalizeGuid (normalizeGuid s) = normalizeGuid s := by
  apply String.ext
  rw [normalizeGuid_data, normalizeGuid_data, normalizeL_idem]

/-- Multiplicity of an element after filtering. -/
theorem count_filter_eq {α : Type} [DecidableEq α] (p : α → Bool) (l : List α) (a : α) :
    (l.filter p).count a = if p a then l.count a else 0 := by
  induction l with
  | nil => simp
  | cons b t ih =>
    by_cases hba : b = a
    · subst hba
      by_cases hpb : p b
      · simp [List.filter_cons, hpb, List.count_cons, ih]
      · simp [List.filter_cons, hpb, List.count_cons, ih]
    · by_cases hpb : p b
      · simp [List.filter_cons, hpb, List.count_cons, hba, ih]
      · simp [List.filter_cons, hpb, List.count_cons, hba, ih]

/-- Removing the same id twice is the same as removing it once. -/
theorem removeRecordById_idem (recordId : String) (l : List ILookupRecord) :
    removeRecordById recordId (removeRecordById recordId l) = removeRecordById recordId l := by
  unfold removeRecordById
  rw [List.filter_filter]
  simp

/-- `loadBegin` when a load is already in progress: no-op. -/
theorem loadBegin_busy {api : WebApi} {s : ControlState} {v : String}
    (h : s.isLoadingInProgress = true) : loadBegin api s v = .done s := by
  unfold loadBegin
  rw [if_pos h]

/-- `loadBegin` on an empty / whitespace value: clear the selection. -/
theorem loadBegin_empty {api : WebApi} {s : ControlState} {v : String}
    (h1 : s.isLoadingInProgress = false) (h2 : trimL v.data = []) :
    loadBegin api s v = .done (triggerRerender { s with
      selectedRecords := [], recordNamesValue := "", boundFieldValue := "",
      isInitialized := true, lastBoundValue := some "" }) := by
  unfold loadBegin
  rw [if_neg (by simp [h1]), if_pos h2]

/-- `loadBegin` on the value already loaded: no-op. -/
theorem loadBegin_same {api : WebApi} {s : ControlState} {v : String}
    (h1 : s.isLoadingInProgress = false) (h2 : trimL v.data ≠ [])
    (h3 : s.lastBoundValue = some v ∧ s.isInitialized = true) :
    loadBegin api s v = .done s := by
  unfold loadBegin
  rw [if_neg (by simp [h1]), if_neg h2, if_pos h3]

/-- `loadBegin` on a non-empty value that parses to no records: clear the
selection, with the double rerender caused by the explicit
`triggerRerender()` followed by the one in `finally`. -/
theorem loadBegin_unparsable {api : WebApi} {s : ControlState} {v : String}
    (h1 : s.isLoadingInProgress = false) (h2 : trimL v.data ≠ [])
    (h3 : ¬(s.lastBoundValue = some v ∧ s.isInitialized = true))
    (h4 : parseBoundValue v = []) :
    loadBegin api s v = .done (triggerRerender (triggerRerender { s with
      lastBoundValue := some v, errorMessage := none, selectedRecords := [],
      recordNamesValue := "", boundFieldValue := "",
      isLoadingInProgress := false, isInitialized := true })) := by
  unfold loadBegin
  rw [if_neg (by simp [h1]), if_neg h2, if_neg h3, if_pos (by simp [h4])]

/-- `loadBegin` when every guard passes and the value parses: publish the
placeholder badges and go in flight. -/
theorem loadBegin_proceed (api : WebApi) {s : ControlState} {v : String}
    (h1 : s.isLoadingInProgress = false) (h2 : trimL v.data ≠ [])
    (h3 : ¬(s.lastBoundValue = some v ∧ s.isInitialized = true))
    (h4 : parseBoundValue v ≠ []) :
    loadBegin api s v = .inFlight
      (triggerRerender { s with
        lastBoundValue := some v, isLoadingInProgress := true,
        errorMessage := none,
        selectedRecords := (parseBoundValue v).map mkPlaceholder,
        isInitialized := true })
      (retrieveAllRecords api (parseBoundValue v)) := by
  unfold loadBegin
  rw [if_neg (by simp [h1]), if_neg h2, if_neg h3,
    if_neg (by simp [List.isEmpty_iff, h4])]

/-- Observable effect of the commit step. -/
theorem commitResults_spec (s2 : ControlState) (r : IRecordRetrievalResult) :
    (commitResults s2 r).selectedRecords = r.validRecords
    ∧ (commitResults s2 r).errorMessage = s2.errorMessage
    ∧ (commitResults s2 r).stateVersion = s2.stateVersion + 1
    ∧ (commitResults s2 r).isLoadingInProgress = false := by
  unfold commitResults triggerRerender
  split <;> simp

/-- The synchronous prefix either keeps the error message or clears it. -/
theorem loadBegin_err_done {api : WebApi} {s : ControlState} {v : String}
    {d : ControlState} (h : loadBegin api s v = .done d) :
    d.errorMessage = s.errorMessage ∨ d.errorMessage = none := by
  simp only [loadBegin] at h
  split_ifs at h
  · injection h with he; subst he; exact Or.inl rfl
  · injection h with he; subst he; exact Or.inl rfl
  · injection h with he; subst he; exact Or.inl rfl
  · injection h with he; subst he; exact Or.inr rfl

/-- An in-flight load has cleared the error message. -/
theorem loadBegin_err_inFlight {api : WebApi} {s : ControlState} {v : String}
    {s2 : ControlState} {r : IRecordRetrievalResult}
    (h : loadBegin api s v = .inFlight s2 r) : s2.errorMessage = none := by
  simp only [loadBegin] at h
  split_ifs at h
  injection h with he hr
  subst he
  rfl

/-- The synchronous prefix never decreases the version counter. -/
theorem loadBegin_version_done {api : WebApi} {s : ControlState} {v : String}
    {d : ControlState} (h : loadBegin api s v = .done d) :
    s.stateVersion ≤ d.stateVersion := by
  simp only [loadBegin] at h
  split_ifs at h
  · injection h with he; subst he; exact Nat.le_refl _
  · injection h with he; subst he; exact Nat.le_succ _
  · injection h with he; subst he; exact Nat.le_refl _
  · injection h with he; subst he; exact Nat.le_add_right _ 2

/-- Going in flight bumps the version by exactly 1 (the placeholder
publication). -/
theorem loadBegin_version_inFlight {api : WebApi} {s : ControlState} {v : String}
    {s2 : ControlState} {r : IRecordRetrievalResult}
    (h : loadBegin api s v = .inFlight s2 r) :
    s2.stateVersion = s.stateVersion + 1 := by
  simp only [loadBegin] at h
  split_ifs at h
  injection h with he hr
  subst he
  rfl

/-- When the synchronous prefix finishes, the whole load finishes with it
regardless of the observation schedule. -/
theorem loadInitialData_done {api : WebApi} {obs : List String} {s : ControlState}
    {v : String} {d : ControlState} (h : loadBegin api s v = .done d) :
    loadInitialData api obs s v = d := by
  cases obs <;> rw [loadInitialData, h]

/-- An in-flight load whose completion re-read sees no change commits. -/
theorem loadInitialData_commit_nil {api : WebApi} {s : ControlState} {v : String}
    {s2 : ControlState} {r : IRecordRetrievalResult}
    (h : loadBegin api s v = .inFlight s2 r) :
    loadInitialData api [] s v = commitResults s2 r := by
  rw [loadInitialData, h]

/-- An in-flight load whose completion re-read returns the same value
commits. -/
theorem loadInitialData_commit_same {api : WebApi} {s : ControlState} {v : String}
    {s2 : ControlState} {r : IRecordRetrievalResult} {rest : List String}
    (h : loadBegin api s v = .inFlight s2 r) :
    loadInitialData api (v :: rest) s v = commitResults s2 r := by
  rw [loadInitialData, h]
  dsimp only
  rw [if_pos rfl]

/-- An in-flight load whose completion re-read sees a different value
discards its results, clears the busy flag, chains a load of the new value,
and then the outer `finally` clears the busy flag and rerenders. -/
theorem loadInitialData_stale {api : WebApi} {s : ControlState} {v : String}
    {s2 : ControlState} {r : IRecordRetrievalResult} {cur : String}
    {rest : List String} (h : loadBegin api s v = .inFlight s2 r)
    (hne : cur ≠ v) :
    loadInitialData api (cur :: rest) s v =
      triggerRerender { loadInitialData api rest { s2 with isLoadingInProgress := false } cur
        with isLoadingInProgress := false } := by
  rw [loadInitialData, h]
  dsimp only
  rw [if_neg hne]

/-- A load that starts with no error message ends with no error message (the
model has no failing path: `retrieveRecord` absorbs every lookup failure, so
`retrieveAllRecords` always settles and the `catch` of `loadInitialData` is
unreachable). -/
theorem loadInitialData_err_none (api : WebApi) :
    ∀ (obs : List String) (s : ControlState) (v : String),
      s.errorMessage = none → (loadInitialData api obs s v).errorMessage = none := by
  intro obs
  induction obs with
  | nil =>
    intro s v h
    cases hb : loadBegin api s v with
    | done d =>
      rw [loadInitialData_done hb]
      rcases loadBegin_err_done hb with h2 | h2
      · rw [h2]; exact h
      · exact h2
    | inFlight s2 r =>
      rw [loadInitialData_commit_nil hb, (commitResults_spec s2 r).2.1]
      exact loadBegin_err_inFlight hb
  | cons cur rest ih =>
    intro s v h
    cases hb : loadBegin api s v with
    | done d =>
      rw [loadInitialData_done hb]
      rcases loadBegin_err_done hb with h2 | h2
      · rw [h2]; exact h
      · exact h2
    | inFlight s2 r =>
      by_cases hcv : cur = v
      · subst hcv
        rw [loadInitialData_commit_same hb, (commitResults_spec s2 r).2.1]
        exact loadBegin_err_inFlight hb
      · rw [loadInitialData_stale hb hcv]
        have he : s2.errorMessage = none := loadBegin_err_inFlight hb
        exact ih { s2 with isLoadingInProgress := false } cur he

/-- Projection through the outer `finally` wrapper of a chained load. -/
theorem loadFinally_sel (x : ControlState) :
    (triggerRerender { x with isLoadingInProgress := false }).selectedRecords =
      x.selectedRecords := rfl

/-- Projection through the outer `finally` wrapper of a chained load. -/
theorem loadFinally_err (x : ControlState) :
    (triggerRerender { x with isLoadingInProgress := false }).errorMessage =
      x.errorMessage := rfl

/-- Projection through the outer `finally` wrapper of a chained load. -/
theorem loadFinally_version (x : ControlState) :
    (triggerRerender { x with isLoadingInProgress := false }).stateVersion =
      x.stateVersion + 1 := rfl

/-- No schedule makes `loadInitialData` decrease the version counter. -/
theorem loadInitialData_version_mono (api : WebApi) :
    ∀ (obs : List String) (s : ControlState) (v : String),
      s.stateVersion ≤ (loadInitialData api obs s v).stateVersion := by
  intro obs
  induction obs with
  | nil =>
    intro s v
    cases hb : loadBegin api s v with
    | done d =>
      rw [loadInitialData_done hb]
      exact loadBegin_version_done hb
    | inFlight s2 r =>
      rw [loadInitialData_commit_nil hb, (commitResults_spec s2 r).2.2.1,
        loadBegin_version_inFlight hb]
      omega
  | cons cur rest ih =>
    intro s v
    cases hb : loadBegin api s v with
    | done d =>
      rw [loadInitialData_done hb]
      exact loadBegin_version_done hb
    | inFlight s2 r =>
      by_cases hcv : cur = v
      · subst hcv
        rw [loadInitialData_commit_same hb, (commitResults_spec s2 r).2.2.1,
          loadBegin_version_inFlight hb]
        omega
      · rw [loadInitialData_stale hb hcv, loadFinally_version]
        have h4 : s2.stateVersion ≤
            (loadInitialData api rest { s2 with isLoadingInProgress := false } cur).stateVersion :=
          ih { s2 with isLoadingInProgress := false } cur
        have h2 := loadBegin_version_inFlight hb
        omega

/-- A load that passes the guards (not busy, non-empty value, value differs
from the snapshot) always ends with a cleared error message. -/
theorem loadInitialData_clears_error (api : WebApi) (obs : List String)
    (s : ControlState) (v : String) (h1 : s.isLoadingInProgress = false)
    (h2 : trimL v.data ≠ [])
    (h3 : ¬(s.lastBoundValue = some v ∧ s.isInitialized = true)) :
    (loadInitialData api obs s v).errorMessage = none := by
  by_cases h4 : parseBoundValue v = []
  · rw [loadInitialData_done (loadBegin_unparsable h1 h2 h3 h4)]
    rfl
  · have hb := loadBegin_proceed api h1 h2 h3 h4
    cases obs with
    | nil =>
      rw [loadInitialData_commit_nil hb, (commitResults_spec _ _).2.1]
      rfl
    | cons cur rest =>
      by_cases hcv : cur = v
      · subst hcv
        rw [loadInitialData_commit_same hb, (commitResults_spec _ _).2.1]
        rfl
      · rw [loadInitialData_stale hb hcv, loadFinally_err]
        exact loadInitialData_err_none api rest _ cur rfl

/-- Every call of `processLookupResults` bumps the version by exactly 1. -/
theorem processLookupResults_version (cache : String → Option String)
    (maxSelections : Option Int) (results : List LookupValue)
    (allowMultiSelect : Bool) (s : ControlState) :
    (processLookupResults cache maxSelections results allowMultiSelect s).stateVersion =
      s.stateVersion + 1 := by
  unfold processLookupResults triggerRerender
  cases allowMultiSelect with
  | false => rfl
  | true =>
    cases maxSelections with
    | none => rfl
    | some m =>
      dsimp only
      split_ifs <;> rfl

/-- The partition of the per-record results into not-found ids. -/
theorem filterMap_notFound_eq (f : IParsedRecord → Option ILookupRecord)
    (l : List IParsedRecord) :
    (l.filterMap fun p => match f p with | some _ => none | none => some p.id) =
      (l.filter fun p => f p = none).map fun p => p.id := by
  induction l with
  | nil => rfl
  | cons a t ih =>
    cases hfa : f a <;>
      simp [List.filterMap_cons, List.filter_cons, hfa, ih]

/-- Every record emitted by the per-segment parser carries an already
normalized identifier. -/
theorem parseEntryL_id_normalized {e : List Char} {r : IParsedRecord}
    (h : parseEntryL e = some r) : normalizeGuid r.id = r.id := by
  unfold parseEntryL at h
  split at h
  · exact Option.noConfusion h
  · dsimp only at h
    split_ifs at h
    injection h with h2
    subst h2
    exact normalizeGuid_idem _

/-- Every record of a parsed bound value carries a normalized identifier. -/
theorem parse_ids_normalized {v : String} {p : IParsedRecord}
    (h : p ∈ parseBoundValue v) : normalizeGuid p.id = p.id := by
  unfold parseBoundValue at h
  split_ifs at h
  · simp at h
  · obtain ⟨e, he, hpe⟩ := List.mem_filterMap.mp h
    exact parseEntryL_id_normalized hpe

/-- A record returned by `retrieveRecord` carries the normalized id it was
asked for and is not a pending placeholder. -/
theorem retrieveRecord_some {api : WebApi} {t recordId : String} {r : ILookupRecord}
    (h : retrieveRecord api t recordId = some r) :
    r.id = normalizeGuid recordId ∧ r.isLoading = false := by
  unfold retrieveRecord at h
  dsimp only at h
  split at h
  · injection h with h2
    subst h2
    exact ⟨rfl, rfl⟩
  · exact Option.noConfusion h
  · split_ifs at h

/-- The resolved records are the per-record lookups, in input order. -/
theorem retrieveAllRecords_validRecords (api : WebApi) (l : List IParsedRecord) :
    (retrieveAllRecords api l).validRecords =
      l.filterMap fun p => retrieveRecord api p.table p.id := by
  unfold retrieveAllRecords
  cases l with
  | nil => rfl
  | cons a t =>
    simp only [List.isEmpty_cons, Bool.false_eq_true, if_false, List.filterMap_map]
    rfl

/-- The deleted ids are the ids of the records whose lookup returned null, in
input order. -/
theorem retrieveAllRecords_deletedIds (api : WebApi) (l : List IParsedRecord) :
    (retrieveAllRecords api l).deletedRecordIds =
      (l.filter fun p => retrieveRecord api p.table p.id = none).map fun p => p.id := by
  unfold retrieveAllRecords
  cases l with
  | nil => rfl
  | cons a t =>
    simp only [List.isEmpty_cons, Bool.false_eq_true, if_false, List.filterMap_map]
    exact filterMap_notFound_eq _ _

/-- Mapping a projection over a `filterMap` that agrees with `h` on kept
elements yields a sublist of mapping `h` over the input. -/
theorem filterMap_map_sublist {α β γ : Type} (f : α → Option β) (g : β → γ)
    (h : α → γ) : ∀ (l : List α),
    (∀ a ∈ l, ∀ b, f a = some b → g b = h a) →
    List.Sublist ((l.filterMap f).map g) (l.map h)
  | [], _ => by simp
  | a :: t, hgh => by
    have iht := filterMap_map_sublist f g h t
      fun x hx b hb => hgh x (List.mem_cons_of_mem _ hx) b hb
    cases hfa : f a with
    | none =>
      rw [List.filterMap_cons_none hfa, List.map_cons]
      exact (iht).cons _
    | some b =>
      rw [List.filterMap_cons_some hfa, List.map_cons, List.map_cons,
        hgh a (List.mem_cons_self _ _) b hfa]
      exact (iht).cons₂ _

/-- Resolved records are never pending. -/
theorem validRecords_nonPending (api : WebApi) (l : List IParsedRecord) :
    ((retrieveAllRecords api l).validRecords.filter fun r => !r.isLoading) =
      (retrieveAllRecords api l).validRecords := by
  rw [retrieveAllRecords_validRecords]
  refine List.filter_eq_self.mpr ?_
  intro r hr
  obtain ⟨p, hp, hfp⟩ := List.mem_filterMap.mp hr
  simp [(retrieveRecord_some hfp).2]

/-- If the parse of `v` has pairwise distinct ids, so do the non-pending
normalized ids of its resolution. -/
theorem retrieveAll_npIds_nodup (api : WebApi) (v : String)
    (h : ((parseBoundValue v).map fun p => p.id).Nodup) :
    (npIds (retrieveAllRecords api (parseBoundValue v)).validRecords).Nodup := by
  unfold npIds
  rw [validRecords_nonPending, retrieveAllRecords_validRecords]
  refine h.sublist ?_
  apply filterMap_map_sublist
  intro p hp r hr
  rw [(retrieveRecord_some hr).1, normalizeGuid_idem]
  exact parse_ids_normalized hp

/-- The selection after the synchronous prefix finishes early is either
untouched or cleared. -/
theorem loadBegin_done_sel {api : WebApi} {s : ControlState} {v : String}
    {d : ControlState} (h : loadBegin api s v = .done d) :
    d.selectedRecords = s.selectedRecords ∨ d.selectedRecords = [] := by
  simp only [loadBegin] at h
  split_ifs at h
  · injection h with he; subst he; exact Or.inl rfl
  · injection h with he; subst he; exact Or.inr rfl
  · injection h with he; subst he; exact Or.inl rfl
  · injection h with he; subst he; exact Or.inr rfl

/-- The in-flight state holds the placeholder badges of the parsed value. -/
theorem loadBegin_inFlight_sel {api : WebApi} {s : ControlState} {v : String}
    {s2 : ControlState} {r : IRecordRetrievalResult}
    (h : loadBegin api s v = .inFlight s2 r) :
    s2.selectedRecords = (parseBoundValue v).map mkPlaceholder := by
  simp only [loadBegin] at h
  split_ifs at h
  injection h with he hr
  subst he
  rfl

/-- The in-flight retrieval is the resolution of the parsed value. -/
theorem loadBegin_inFlight_result {api : WebApi} {s : ControlState} {v : String}
    {s2 : ControlState} {r : IRecordRetrievalResult}
    (h : loadBegin api s v = .inFlight s2 r) :
    r = retrieveAllRecords api (parseBoundValue v) := by
  simp only [loadBegin] at h
  split_ifs at h
  injection h with he hr
  exact hr.symm

/-- Placeholder badges contribute no non-pending ids. -/
theorem npIds_placeholders (l : List IParsedRecord) :
    npIds (l.map mkPlaceholder) = [] := by
  unfold npIds
  rw [List.filter_eq_nil_iff.mpr ?_]
  · rfl
  · intro r hr
    obtain ⟨p, hp, rfl⟩ := List.mem_map.mp hr
    simp [mkPlaceholder]

/-- `npIds` is monotone with respect to sublists. -/
theorem npIds_sublist {l m : List ILookupRecord} (h : List.Sublist l m) :
    List.Sublist (npIds l) (npIds m) := (h.filter _).map _

end HelperLemmas

/-- C10: `removeRecordById` matches by normalized identifier (braces stripped,
case-insensitive on both the supplied id and the stored ids), removes every
matching occurrence at once, keeps all other entries with their multiplicity,
and returns a sublist of the input (relative order preserved; the input list
itself is untouched, the result being a new list). -/
theorem c10_removeRecordById_spec (recordId : String) (l : List ILookupRecord) :
    (∀ r : ILookupRecord, (removeRecordById recordId l).count r =
        if normalizeGuid r.id = normalizeGuid recordId then 0 else l.count r)
    ∧ List.Sublist (removeRecordById recordId l) l
    ∧ (∀ otherId : String, normalizeGuid otherId = normalizeGuid recordId →
        removeRecordById otherId l = removeRecordById recordId l) := by
  refine ⟨?_, List.filter_sublist l, ?_⟩
  · intro r
    unfold removeRecordById
    rw [count_filter_eq]
    by_cases h : normalizeGuid r.id = normalizeGuid recordId
    · simp [h]
    · simp [h]
  · intro otherId h
    unfold removeRecordById
    rw [h]

/-- C9: `removeRecord` is idempotent — the second call with the same
identifier leaves the selection, both serialized outputs, the snapshot and the
error state exactly as the first call did (only the version counter is bumped
again), and the error message after a removal is always `none`. -/
theorem c9_removeRecord_idempotent (recordId : String) (s : ControlState) :
    handleRemoveRecord recordId (handleRemoveRecord recordId s) =
      { handleRemoveRecord recordId s with
          stateVersion := (handleRemoveRecord recordId s).stateVersion + 1 }
    ∧ (handleRemoveRecord recordId s).errorMessage = none := by
  obtain ⟨sel, err, bv, rn, init, lbv, busy, ver⟩ := s
  constructor
  · simp [handleRemoveRecord, triggerRerender, removeRecordById_idem]
  · rfl

/-- C1: if the bound value changes from `A` to `B` while the resolution
started for `A` is in flight, the completion-time staleness check discards
`A`'s results and chains a load of `B`; once everything settles the committed
selection is exactly the resolution of `B` (never a mix of `A`'s results
layered on top of `B`). -/
theorem c1_stale_resolution_discarded (api : WebApi) (A B : String)
    (s : ControlState) (hBA : B ≠ A)
    (hbusy : s.isLoadingInProgress = false)
    (hfresh : ¬(s.lastBoundValue = some A ∧ s.isInitialized = true))
    (hAtrim : trimL A.data ≠ []) (hApar : parseBoundValue A ≠ [])
    (hBtrim : trimL B.data ≠ []) (hBpar : parseBoundValue B ≠ []) :
    (loadInitialData api [B] s A).selectedRecords =
      (retrieveAllRecords api (parseBoundValue B)).validRecords := by
  have hb := loadBegin_proceed api hbusy hAtrim hfresh hApar
  rw [loadInitialData_stale hb hBA, loadFinally_sel]
  have hinner := loadBegin_proceed api
    (show ({ triggerRerender { s with
        lastBoundValue := some A, isLoadingInProgress := true,
        errorMessage := none,
        selectedRecords := (parseBoundValue A).map mkPlaceholder,
        isInitialized := true } with isLoadingInProgress := false } :
      ControlState).isLoadingInProgress = false from rfl)
    hBtrim
    (by rintro ⟨hx, -⟩; exact hBA (Option.some.inj hx).symm)
    hBpar
  rw [loadInitialData_commit_nil hinner, (commitResults_spec _ _).1]

/-- C1 witness: a concrete change from `A` to `B` during resolution. -/
theorem c1_stale_resolution_discarded_witness :
    ("22222222-2222-2222-2222-222222222222:account" : String) ≠
        "11111111-1111-1111-1111-111111111111:contact"
    ∧ parseBoundValue "11111111-1111-1111-1111-111111111111:contact" ≠ []
    ∧ (loadInitialData (fun _ _ => .ok [("fullname", "Jane Doe")])
        ["22222222-2222-2222-2222-222222222222:account"] initControlState
        "11111111-1111-1111-1111-111111111111:contact").selectedRecords =
      (retrieveAllRecords (fun _ _ => .ok [("fullname", "Jane Doe")])
        (parseBoundValue "22222222-2222-2222-2222-222222222222:account")).validRecords :=
  ⟨by decide, by decide,
    c1_stale_resolution_discarded (fun _ _ => .ok [("fullname", "Jane Doe")])
      "11111111-1111-1111-1111-111111111111:contact"
      "22222222-2222-2222-2222-222222222222:account"
      initControlState (by decide) rfl (by decide) (by decide) (by decide)
      (by decide) (by decide)⟩

/-- C3 counterexample: a non-not-found, non-forbidden failure (HTTP 500) is
NOT propagated by `retrieveRecord`: the `catch` logs it and returns `null`,
the very same outcome as the silent not-found class, so the caller cannot
distinguish the two and no `ResolveError` ever reaches it. -/
theorem c3_counterexample :
    retrieveRecord (fun _ _ => .err (some (.num 500)) none (some "Internal server error"))
      "account" "44444444-4444-4444-4444-444444444444" = none
    ∧ retrieveRecord (fun _ _ => .err (some (.num 500)) none (some "Internal server error"))
        "account" "44444444-4444-4444-4444-444444444444"
      = retrieveRecord (fun _ _ => .err (some (.num 404)) none (some "Entity does not exist"))
          "account" "44444444-4444-4444-4444-444444444444" := by
  exact ⟨rfl, rfl⟩

/-- C3 (amended): `retrieveRecord` maps the not-found / forbidden classes to a
silent `null`, and ALSO absorbs every other failure as `null` (after logging);
no failure propagates.  On success it returns the record with the display name
chosen by the `??` chain, and `retrieveAllRecords` partitions the per-record
outcomes into resolved records and deleted ids, in input order. -/
theorem c3_amended_silent_absorption :
    (∀ (api : WebApi) (t recordId : String) (code errorCode : Option JsVal)
        (message : Option String),
        api t (normalizeGuid recordId) = .err code errorCode message →
        retrieveRecord api t recordId = none)
    ∧ (∀ (api : WebApi) (t recordId : String) (fields : List (String × String)),
        api t (normalizeGuid recordId) = .ok fields →
        retrieveRecord api t recordId = some {
          id := normalizeGuid recordId,
          table := toLowerS t,
          name := pickDisplayName fields (getPrimaryNameField t) })
    ∧ (∀ (api : WebApi) (parsedRecords : List IParsedRecord),
        (retrieveAllRecords api parsedRecords).validRecords =
          parsedRecords.filterMap (fun p => retrieveRecord api p.table p.id)
        ∧ (retrieveAllRecords api parsedRecords).deletedRecordIds =
          (parsedRecords.filter fun p => retrieveRecord api p.table p.id = none).map
            fun p => p.id) := by
  refine ⟨?_, ?_, ?_⟩
  · intro api t recordId code errorCode message h
    unfold retrieveRecord
    dsimp only
    rw [h]
    dsimp only
    split <;> rfl
  · intro api t recordId fields h
    unfold retrieveRecord
    dsimp only
    rw [h]
  · intro api parsedRecords
    unfold retrieveAllRecords
    cases parsedRecords with
    | nil => exact ⟨rfl, rfl⟩
    | cons a t =>
      refine ⟨?_, ?_⟩ <;>
        simp only [List.isEmpty_cons, Bool.false_eq_true, if_false, List.filterMap_map]
      · rfl
      · exact filterMap_notFound_eq _ _

/-- C3 amended, witness at a concrete transport error. -/
theorem c3_amended_silent_absorption_witness :
    ((fun _ _ => WebApiResponse.err (some (.num 500)) none (some "boom")) : WebApi)
        "account" (normalizeGuid "44444444-4444-4444-4444-444444444444") =
      .err (some (.num 500)) none (some "boom")
    ∧ retrieveRecord (fun _ _ => .err (some (.num 500)) none (some "boom"))
        "account" "44444444-4444-4444-4444-444444444444" = none :=
  ⟨rfl, c3_amended_silent_absorption.1 (fun _ _ => .err (some (.num 500)) none (some "boom"))
    "account" "44444444-4444-4444-4444-444444444444" (some (.num 500)) none (some "boom") rfl⟩

/-- C5 counterexample: a successful `addRecords` (multi-select, no`maxSelections`
configured, one genuinely new record appended) does NOT clear a previously set
error message — `processLookupResults` only ever writes `errorMessage` in its
truncation branch. -/
theorem c5_counterexample :
    (processLookupResults (fun _ => none) none
        [{ id := "44444444-4444-4444-4444-444444444444", entityType := "account",
           name := some "Acme" }] true
        { initControlState with errorMessage := some "Previous error" }).errorMessage
      = some "Previous error"
    ∧ (processLookupResults (fun _ => none) none
        [{ id := "44444444-4444-4444-4444-444444444444", entityType := "account",
           name := some "Acme" }] true
        { initControlState with errorMessage := some "Previous error" }).selectedRecords
      ≠ ({ initControlState with errorMessage := some "Previous error" } :
          ControlState).selectedRecords := by
  exact ⟨rfl, by decide⟩

/-- C5 (amended): the user-visible error is one `Option String` on the state,
so each write replaces (never accumulates).  It is cleared by `removeRecord`
and by any load that enters reconciliation; `addRecords` however leaves a
prior message unchanged unless its truncation branch fires, in which case the
message is replaced by the "too many" string. -/
theorem c5_amended_error_lifecycle :
    (∀ (recordId : String) (s : ControlState),
        (handleRemoveRecord recordId s).errorMessage = none)
    ∧ (∀ (cache : String → Option String) (results : List LookupValue) (s : ControlState),
        (processLookupResults cache none results true s).errorMessage = s.errorMessage)
    ∧ (∀ (cache : String → Option String) (m : Int) (results : List LookupValue)
          (s : ControlState),
        ¬(0 < m ∧ m < ((s.selectedRecords ++
            uniqueNewOf s.selectedRecords (newRecordsOf cache results)).length : Int)) →
        (processLookupResults cache (some m) results true s).errorMessage = s.errorMessage)
    ∧ (∀ (cache : String → Option String) (maxSelections : Option Int)
          (results : List LookupValue) (s : ControlState),
        (processLookupResults cache maxSelections results false s).errorMessage =
          s.errorMessage)
    ∧ (∀ (cache : String → Option String) (m : Int) (results : List LookupValue)
          (s : ControlState),
        (0 < m ∧ m < ((s.selectedRecords ++
            uniqueNewOf s.selectedRecords (newRecordsOf cache results)).length : Int)) →
        (processLookupResults cache (some m) results true s).errorMessage =
          some (tooManyMessage m (((s.selectedRecords ++
            uniqueNewOf s.selectedRecords (newRecordsOf cache results)).length : Int) - m)))
    ∧ (∀ (api : WebApi) (obs : List String) (s : ControlState) (v : String),
        s.isLoadingInProgress = false → trimL v.data ≠ [] →
        ¬(s.lastBoundValue = some v ∧ s.isInitialized = true) →
        (loadInitialData api obs s v).errorMessage = none) := by
  refine ⟨fun recordId s => rfl, fun cache results s => rfl, ?_, fun _ _ _ _ => rfl, ?_,
    fun api obs s v h1 h2 h3 => loadInitialData_clears_error api obs s v h1 h2 h3⟩
  · intro cache m results s h
    unfold processLookupResults
    dsimp only
    rw [if_neg h]
    rfl
  · intro cache m results s h
    unfold processLookupResults
    dsimp only
    rw [if_pos h]
    rfl

/-- C5 amended, witness: removal clears a set message; an overflowing add
replaces it with the truncation message. -/
theorem c5_amended_error_lifecycle_witness :
    (handleRemoveRecord "44444444-4444-4444-4444-444444444444"
        { initControlState with errorMessage := some "Previous error" }).errorMessage = none
    ∧ (processLookupResults (fun _ => none) (some 1)
        [{ id := "44444444-4444-4444-4444-444444444444", entityType := "account",
           name := some "Acme" },
         { id := "55555555-5555-5555-5555-555555555555", entityType := "account",
           name := some "Blue" }] true
        { initControlState with errorMessage := some "Previous error" }).errorMessage =
      some "Too many selections. Only the first 1 record was retained (1 removed)." := by
  constructor
  · exact c5_amended_error_lifecycle.1 "44444444-4444-4444-4444-444444444444"
      { initControlState with errorMessage := some "Previous error" }
  · rw [c5_amended_error_lifecycle.2.2.2.2.1 (fun _ => none) 1
      [{ id := "44444444-4444-4444-4444-444444444444", entityType := "account",
         name := some "Acme" },
       { id := "55555555-5555-5555-5555-555555555555", entityType := "account",
         name := some "Blue" }]
      { initControlState with errorMessage := some "Previous error" } (by decide)]
    decide

/-- C6: with `multi = true` and a configured positive `maxSelections`,
`addRecords` appends the deduplicated new records after the existing entries;
when the combined length exceeds the maximum the selection is truncated to the
first `maxSelections` entries in insertion order (newest additions dropped)
and the error message states the exact number of removed records. -/
theorem c6_max_truncation (cache : String → Option String) (m : Int)
    (results : List LookupValue) (s : ControlState) (hm : 0 < m)
    (hover : m < ((s.selectedRecords ++
        uniqueNewOf s.selectedRecords (newRecordsOf cache results)).length : Int)) :
    (processLookupResults cache (some m) results true s).selectedRecords =
      (s.selectedRecords ++
        uniqueNewOf s.selectedRecords (newRecordsOf cache results)).take m.toNat
    ∧ (processLookupResults cache (some m) results true s).errorMessage =
      some (tooManyMessage m (((s.selectedRecords ++
        uniqueNewOf s.selectedRecords (newRecordsOf cache results)).length : Int) - m)) := by
  unfold processLookupResults
  dsimp only
  rw [if_pos (And.intro hm hover)]
  exact ⟨rfl, rfl⟩

/-- C6 witness: the spec's concrete example — 3 unique new records added to an
empty selection with `max = 2` keep exactly the first two, in order, and the
message states that 1 record was removed. -/
theorem c6_max_truncation_witness :
    (0 : Int) < 2
    ∧ (processLookupResults (fun _ => none) (some 2)
        [{ id := "11111111-1111-1111-1111-111111111111", entityType := "account",
           name := some "One" },
         { id := "22222222-2222-2222-2222-222222222222", entityType := "account",
           name := some "Two" },
         { id := "33333333-3333-3333-3333-333333333333", entityType := "account",
           name := some "Three" }] true initControlState).selectedRecords =
      [{ id := "11111111-1111-1111-1111-111111111111", table := "account", name := "One" },
       { id := "22222222-2222-2222-2222-222222222222", table := "account", name := "Two" }]
    ∧ (processLookupResults (fun _ => none) (some 2)
        [{ id := "11111111-1111-1111-1111-111111111111", entityType := "account",
           name := some "One" },
         { id := "22222222-2222-2222-2222-222222222222", entityType := "account",
           name := some "Two" },
         { id := "33333333-3333-3333-3333-333333333333", entityType := "account",
           name := some "Three" }] true initControlState).errorMessage =
      some "Too many selections. Only the first 2 records were retained (1 removed)." := by
  have h := c6_max_truncation (fun _ => none) 2
    [{ id := "11111111-1111-1111-1111-111111111111", entityType := "account",
       name := some "One" },
     { id := "22222222-2222-2222-2222-222222222222", entityType := "account",
       name := some "Two" },
     { id := "33333333-3333-3333-3333-333333333333", entityType := "account",
       name := some "Three" }] initControlState (by decide) (by decide)
  refine ⟨by decide, ?_, ?_⟩
  · rw [h.1]; decide
  · rw [h.2]; decide

/-- C7 counterexample: loading a non-empty bound value that parses to no
records clears the selection — one observable mutation — but bumps the version
counter by 2, not 1 (the explicit rerender plus the one in `finally`). -/
theorem c7_counterexample :
    (loadInitialData (fun _ _ => .nullResult) []
        { initControlState with
            selectedRecords := [{
              id := "44444444-4444-4444-4444-444444444444",
              table := "account", name := "Acme" }],
            isInitialized := true, lastBoundValue := some "old",
            stateVersion := 5 } "garbage").selectedRecords = []
    ∧ ({ initControlState with
            selectedRecords := [{
              id := "44444444-4444-4444-4444-444444444444",
              table := "account", name := "Acme" }],
            isInitialized := true, lastBoundValue := some "old",
            stateVersion := 5 } : ControlState).selectedRecords ≠ []
    ∧ (loadInitialData (fun _ _ => .nullResult) []
        { initControlState with
            selectedRecords := [{
              id := "44444444-4444-4444-4444-444444444444",
              table := "account", name := "Acme" }],
            isInitialized := true, lastBoundValue := some "old",
            stateVersion := 5 } "garbage").stateVersion = 5 + 2 := by
  exact ⟨by decide, by decide, by decide⟩

/-- C7 (amended): the version counter starts at 0 and never decreases;
`addRecords` and `removeRecord` increase it by exactly 1 per call, and a load
increases it once for the placeholder publication and once on completion —
but a load of a non-empty value that parses to no records increases it by 2
in one step (its clearing path rerenders both explicitly and in `finally`),
so "exactly 1 per observable mutation" does not hold there. -/
theorem c7_amended_version_monotonic :
    initControlState.stateVersion = 0
    ∧ (∀ (api : WebApi) (obs : List String) (s : ControlState) (v : String),
        s.stateVersion ≤ (loadInitialData api obs s v).stateVersion)
    ∧ (∀ (cache : String → Option String) (maxSelections : Option Int)
          (results : List LookupValue) (allowMultiSelect : Bool) (s : ControlState),
        (processLookupResults cache maxSelections results allowMultiSelect s).stateVersion =
          s.stateVersion + 1)
    ∧ (∀ (recordId : String) (s : ControlState),
        (handleRemoveRecord recordId s).stateVersion = s.stateVersion + 1)
    ∧ (∀ (api : WebApi) (obs : List String) (s : ControlState) (v : String),
        s.isLoadingInProgress = false → trimL v.data ≠ [] →
        ¬(s.lastBoundValue = some v ∧ s.isInitialized = true) →
        parseBoundValue v = [] →
        (loadInitialData api obs s v).stateVersion = s.stateVersion + 2) := by
  refine ⟨rfl, loadInitialData_version_mono, processLookupResults_version,
    fun recordId s => rfl, ?_⟩
  intro api obs s v h1 h2 h3 h4
  rw [loadInitialData_done (loadBegin_unparsable h1 h2 h3 h4)]
  rfl

/-- C7 amended, witness: a fresh garbage load bumps the counter from 0 to 2. -/
theorem c7_amended_version_monotonic_witness :
    initControlState.isLoadingInProgress = false
    ∧ parseBoundValue "garbage" = []
    ∧ (loadInitialData (fun _ _ => .nullResult) [] initControlState "garbage").stateVersion =
      initControlState.stateVersion + 2 :=
  ⟨rfl, by decide,
    c7_amended_version_monotonic.2.2.2.2 (fun _ _ => .nullResult) [] initControlState
      "garbage" rfl (by decide) (by decide) (by decide)⟩

/-- C4 counterexample: `loadInitialData` performs no deduplication, so an
externally supplied bound value with the same identifier in two segments
commits two non-pending entries with equal normalized identifiers — the
claimed uniqueness invariant fails on a full load. -/
theorem c4_counterexample :
    ¬ (nonPendingNormalizedIds (loadInitialData (fun _ _ => .ok [("name", "Acme")]) []
        initControlState
        ("44444444-4444-4444-4444-444444444444:account;" ++
          "44444444-4444-4444-4444-444444444444:account"))).Nodup := by
  decide

/-- Sublist bound for a multi-select `addRecords`: the final selection is a
prefix-truncation of the deduplicated append. -/
theorem processLookupResults_multi_sel_sublist (cache : String → Option String)
    (maxSelections : Option Int) (results : List LookupValue) (s : ControlState) :
    List.Sublist (processLookupResults cache maxSelections results true s).selectedRecords
      (s.selectedRecords ++ uniqueNewOf s.selectedRecords (newRecordsOf cache results)) := by
  unfold processLookupResults
  dsimp only
  cases maxSelections with
  | none => exact List.Sublist.refl _
  | some mm =>
    dsimp only
    split_ifs with h1 h2
    · exact List.take_sublist _ _
    · exact List.Sublist.refl _
    · exact absurd rfl h1

/-- The non-pending normalized ids of an append. -/
theorem npIds_append (a b : List ILookupRecord) :
    npIds (a ++ b) = npIds a ++ npIds b := by
  unfold npIds
  rw [List.filter_append, List.map_append]

/-- Deduplicated new records with pairwise distinct normalized ids keep their
distinctness. -/
theorem npIds_uniqueNew_nodup {sel nr : List ILookupRecord}
    (hnew : (nr.map fun r => normalizeGuid r.id).Nodup) :
    (npIds (uniqueNewOf sel nr)).Nodup := by
  refine hnew.sublist ?_
  unfold uniqueNewOf npIds
  exact ((List.filter_sublist _).trans (List.filter_sublist _)).map _

/-- The deduplication filter makes the new ids disjoint from every id already
in the selection. -/
theorem npIds_uniqueNew_disjoint (sel nr : List ILookupRecord) :
    ∀ x ∈ npIds (uniqueNewOf sel nr), x ∉ npIds sel := by
  intro x hx hxsel
  unfold npIds uniqueNewOf at hx
  unfold npIds at hxsel
  obtain ⟨r, hr, rfl⟩ := List.mem_map.mp hx
  have hr2 := List.mem_filter.mp hr
  have hr3 := List.mem_filter.mp hr2.1
  obtain ⟨r2, hr2sel, heq⟩ := List.mem_map.mp hxsel
  have hmem : normalizeGuid r.id ∈ sel.map fun q => normalizeGuid q.id := by
    rw [← heq]
    exact List.mem_map_of_mem _ (List.mem_filter.mp hr2sel).1
  have hcon := hr3.2
  simp only [Bool.not_eq_true'] at hcon
  have helem : (List.map (fun q => normalizeGuid q.id) sel).contains (normalizeGuid r.id) = true :=
    List.elem_eq_true_of_mem hmem
  rw [helem] at hcon
  exact Bool.noConfusion hcon

/-- C4 (amended): the pairwise distinctness of the non-pending normalized
identifiers is preserved by `addRecords` (which deduplicates against the
existing selection) when the incoming records are themselves distinct, by the
single-select replacement, and by `removeRecord`; a full load preserves it
only when the externally supplied bound value itself contains no duplicate
identifiers — the Reconciler does NOT deduplicate a parsed bound value. -/
theorem c4_amended_uniqueness :
    (∀ (api : WebApi) (obs : List String) (s : ControlState) (v : String),
        (∀ w, w = v ∨ w ∈ obs → ((parseBoundValue w).map fun p => p.id).Nodup) →
        (nonPendingNormalizedIds s).Nodup →
        (nonPendingNormalizedIds (loadInitialData api obs s v)).Nodup)
    ∧ (∀ (cache : String → Option String) (maxSelections : Option Int)
          (results : List LookupValue) (s : ControlState),
        (nonPendingNormalizedIds s).Nodup →
        ((newRecordsOf cache results).map fun r => normalizeGuid r.id).Nodup →
        (nonPendingNormalizedIds
          (processLookupResults cache maxSelections results true s)).Nodup)
    ∧ (∀ (cache : String → Option String) (maxSelections : Option Int)
          (results : List LookupValue) (s : ControlState),
        (nonPendingNormalizedIds
          (processLookupResults cache maxSelections results false s)).Nodup)
    ∧ (∀ (recordId : String) (s : ControlState),
        (nonPendingNormalizedIds s).Nodup →
        (nonPendingNormalizedIds (handleRemoveRecord recordId s)).Nodup) := by
  refine ⟨?_, ?_, ?_, ?_⟩
  · intro api obs
    induction obs with
    | nil =>
      intro s v hw hs
      cases hb : loadBegin api s v with
      | done d =>
        rw [loadInitialData_done hb]
        show (npIds d.selectedRecords).Nodup
        rcases loadBegin_done_sel hb with h2 | h2 <;> rw [h2]
        · exact hs
        · simp [npIds]
      | inFlight s2 r =>
        rw [loadInitialData_commit_nil hb]
        show (npIds (commitResults s2 r).selectedRecords).Nodup
        rw [(commitResults_spec s2 r).1, loadBegin_inFlight_result hb]
        exact retrieveAll_npIds_nodup api v (hw v (Or.inl rfl))
    | cons cur rest ih =>
      intro s v hw hs
      cases hb : loadBegin api s v with
      | done d =>
        rw [loadInitialData_done hb]
        show (npIds d.selectedRecords).Nodup
        rcases loadBegin_done_sel hb with h2 | h2 <;> rw [h2]
        · exact hs
        · simp [npIds]
      | inFlight s2 r =>
        by_cases hcv : cur = v
        · subst hcv
          rw [loadInitialData_commit_same hb]
          show (npIds (commitResults s2 r).selectedRecords).Nodup
          rw [(commitResults_spec s2 r).1, loadBegin_inFlight_result hb]
          exact retrieveAll_npIds_nodup api cur (hw cur (Or.inl rfl))
        · rw [loadInitialData_stale hb hcv]
          show (npIds (triggerRerender { loadInitialData api rest
            { s2 with isLoadingInProgress := false } cur with
            isLoadingInProgress := false }).selectedRecords).Nodup
          rw [loadFinally_sel]
          refine ih { s2 with isLoadingInProgress := false } cur ?_ ?_
          · intro w hw2
            refine hw w ?_
            rcases hw2 with h | h
            · exact Or.inr (h ▸ List.mem_cons_self _ _)
            · exact Or.inr (List.mem_cons_of_mem _ h)
          · show (npIds s2.selectedRecords).Nodup
            rw [loadBegin_inFlight_sel hb, npIds_placeholders]
            exact List.nodup_nil
  · intro cache maxSelections results s hs hnew
    have hsub := processLookupResults_multi_sel_sublist cache maxSelections results s
    have hcomb : (npIds (s.selectedRecords ++
        uniqueNewOf s.selectedRecords (newRecordsOf cache results))).Nodup := by
      rw [npIds_append]
      refine List.nodup_append.mpr ⟨hs, npIds_uniqueNew_nodup hnew, ?_⟩
      intro a ha hauniq
      exact npIds_uniqueNew_disjoint _ _ a hauniq ha
    exact hcomb.sublist (npIds_sublist hsub)
  · intro cache maxSelections results s
    show (npIds ((newRecordsOf cache results).take 1)).Nodup
    cases hnr : newRecordsOf cache results with
    | nil => simp [npIds]
    | cons a t =>
      show (npIds [a]).Nodup
      unfold npIds
      cases ha : a.isLoading <;> simp [List.filter, ha]
  · intro recordId s hs
    show (npIds (removeRecordById recordId s.selectedRecords)).Nodup
    exact hs.sublist (npIds_sublist (List.filter_sublist _))

/-- C4 amended, witness: a duplicate-free load and a duplicate-free add keep
the invariant. -/
theorem c4_amended_uniqueness_witness :
    ((parseBoundValue "11111111-1111-1111-1111-111111111111:contact").map fun p => p.id).Nodup
    ∧ (nonPendingNormalizedIds (loadInitialData (fun _ _ => .ok [("name", "Acme")]) []
        initControlState "11111111-1111-1111-1111-111111111111:contact")).Nodup := by
  constructor
  · decide
  · exact c4_amended_uniqueness.1 (fun _ _ => .ok [("name", "Acme")]) [] initControlState
      "11111111-1111-1111-1111-111111111111:contact"
      (fun w hw => by
        rcases hw with rfl | h
        · decide
        · exact absurd h (List.not_mem_nil _))
      (by decide)

/-- A segment without a colon is skipped by the loop (`indexOf === -1`). -/
theorem splitAtFirstColon_none {e : List Char} (h : ':' ∉ e) :
    splitAtFirstColon e = none := by
  induction e with
  | nil => rfl
  | cons c cs ih =>
    have hc : ¬(c = ':') := fun hcc => h (by rw [hcc]; exact List.mem_cons_self _ _)
    have hcs : ':' ∉ cs := fun hm => h (List.mem_cons_of_mem _ hm)
    rw [splitAtFirstColon, if_neg hc, ih hcs]

/-- Splitting at the first colon of `a ++ ':' :: b` when `a` has no colon. -/
theorem splitAtFirstColon_append {a : List Char} (b : List Char) (h : ':' ∉ a) :
    splitAtFirstColon (a ++ ':' :: b) = some (a, b) := by
  induction a with
  | nil =>
    rw [List.nil_append, splitAtFirstColon, if_pos rfl]
  | cons c cs ih =>
    have hc : ¬(c = ':') := fun hcc => h (by rw [hcc]; exact List.mem_cons_self _ _)
    have hcs : ':' ∉ cs := fun hm => h (List.mem_cons_of_mem _ hm)
    rw [List.cons_append, splitAtFirstColon, if_neg hc, ih hcs]

/-- A separator-free list splits into itself. -/
theorem splitSep_no_sep {sep : Char} {x : List Char} (h : sep ∉ x) :
    splitSep sep x = [x] := by
  induction x with
  | nil => rfl
  | cons c cs ih =>
    have hc : ¬(c = sep) := fun hcc => h (by rw [← hcc]; exact List.mem_cons_self _ _)
    have hcs : sep ∉ cs := fun hm => h (List.mem_cons_of_mem _ hm)
    rw [splitSep]
    rw [if_neg hc, ih hcs]

/-- Peeling the first separator-free piece off a split. -/
theorem splitSep_append_cons {sep : Char} {x : List Char} (r : List Char)
    (h : sep ∉ x) :
    splitSep sep (x ++ sep :: r) = x :: splitSep sep r := by
  induction x with
  | nil =>
    rw [List.nil_append, splitSep]
    rw [if_pos rfl]
  | cons c cs ih =>
    have hc : ¬(c = sep) := fun hcc => h (by rw [← hcc]; exact List.mem_cons_self _ _)
    have hcs : sep ∉ cs := fun hm => h (List.mem_cons_of_mem _ hm)
    rw [List.cons_append, splitSep]
    rw [if_neg hc, ih hcs]

/-- `splitSep` is a left inverse of `joinSep` on separator-free pieces. -/
theorem splitSep_joinSep {sep : Char} : ∀ {parts : List (List Char)},
    parts ≠ [] → (∀ p ∈ parts, sep ∉ p) →
    splitSep sep (joinSep sep parts) = parts
  | [], hne, _ => absurd rfl hne
  | [x], _, h => by
    show splitSep sep x = [x]
    exact splitSep_no_sep (h x (List.mem_cons_self _ _))
  | x :: y :: rest, _, h => by
    show splitSep sep (x ++ sep :: joinSep sep (y :: rest)) = x :: (y :: rest)
    rw [splitSep_append_cons _ (h x (List.mem_cons_self _ _))]
    rw [splitSep_joinSep (List.cons_ne_nil _ _)
      (fun p hp => h p (List.mem_cons_of_mem _ hp))]

/-- Characters of a piece are characters of the join. -/
theorem mem_joinSep {sep c : Char} : ∀ {parts : List (List Char)} {p : List Char},
    p ∈ parts → c ∈ p → c ∈ joinSep sep parts
  | [], _, hp, _ => absurd hp (List.not_mem_nil _)
  | [x], p, hp, hc => by
    have hx : p = x := by simpa using hp
    subst hx
    exact hc
  | x :: y :: rest, p, hp, hc => by
    show c ∈ x ++ sep :: joinSep sep (y :: rest)
    rcases List.mem_cons.mp hp with rfl | hp2
    · exact List.mem_append_left _ hc
    · exact List.mem_append_right _
        (List.mem_cons_of_mem _ (mem_joinSep hp2 hc))

/-- `trim` of a whitespace-free list is the list itself. -/
theorem trimL_eq_self {l : List Char} (h : ∀ c ∈ l, jsWs c = false) :
    trimL l = l := by
  have hdrop : ∀ (m : List Char), (∀ c ∈ m, jsWs c = false) → m.dropWhile jsWs = m := by
    intro m hm
    cases m with
    | nil => rfl
    | cons a t =>
      rw [List.dropWhile_cons, if_neg (by simp [hm a (List.mem_cons_self _ _)])]
  unfold trimL
  rw [hdrop l h, hdrop l.reverse (fun c hc => h c (List.mem_reverse.mp hc)),
    List.reverse_reverse]

/-- A list whose `trim` is empty is all whitespace. -/
theorem all_ws_of_trimL_eq_nil {l : List Char} (h : trimL l = []) :
    ∀ c ∈ l, jsWs c = true := by
  unfold trimL at h
  rw [List.reverse_eq_nil_iff, List.dropWhile_eq_nil_iff] at h
  intro c hc
  rw [← List.takeWhile_append_dropWhile jsWs l] at hc
  rcases List.mem_append.mp hc with h1 | h2
  · exact List.mem_takeWhile_imp h1
  · exact h c (List.mem_reverse.mpr h2)

/-- A list containing a non-whitespace character has a non-empty `trim`. -/
theorem trimL_ne_nil {l : List Char} {c : Char} (hc : c ∈ l) (hws : jsWs c = false) :
    trimL l ≠ [] := by
  intro h
  rw [all_ws_of_trimL_eq_nil h c hc] at hws
  exact Bool.noConfusion hws

/-- A hex digit is not whitespace, not a separator, not a colon, and not a
brace. -/
theorem hexChar_facts {c : Char} (h : isHexDigit c = true) :
    jsWs c = false ∧ c ≠ ';' ∧ c ≠ ':' ∧ notBrace c = true := by
  have hm : c ∈ hexDigits := List.mem_of_elem_eq_true h
  fin_cases hm <;> exact ⟨rfl, by decide, by decide, rfl⟩

/-- Every character of a grammar-valid GUID core is a hyphen or hex digit. -/
theorem guidShape_chars {core : List Char} (h : guidShape core = true) :
    ∀ c ∈ core, c = '-' ∨ isHexDigit c = true := by
  unfold guidShape at h
  split at h
  · intro c hc
    simp only [Bool.and_eq_true] at h
    have h3 := List.all_eq_true.mp h.2 c hc
    simpa using h3
  · exact absurd h (by simp)

/-- A grammar-valid GUID core is non-empty. -/
theorem guidShape_ne_nil {core : List Char} (h : guidShape core = true) :
    core ≠ [] := by
  intro hnil
  subst hnil
  exact absurd h (by decide)

/-- Characters of a valid identifier part are not whitespace, `;` or `:`. -/
theorem validId_chars {p : List Char} (hp : ValidIdPart p) :
    ∀ c ∈ p, jsWs c = false ∧ c ≠ ';' ∧ c ≠ ':' := by
  obtain ⟨core, hshape, hform⟩ := hp
  intro c hc
  have hcchar : c = '{' ∨ c = '}' ∨ c = '-' ∨ isHexDigit c = true := by
    rcases hform with rfl | rfl
    · rcases guidShape_chars hshape c hc with h | h
      · exact Or.inr (Or.inr (Or.inl h))
      · exact Or.inr (Or.inr (Or.inr h))
    · rcases List.mem_cons.mp hc with rfl | hc2
      · exact Or.inl rfl
      · rcases List.mem_append.mp hc2 with hc3 | hc4
        · rcases guidShape_chars hshape c hc3 with h | h
          · exact Or.inr (Or.inr (Or.inl h))
          · exact Or.inr (Or.inr (Or.inr h))
        · have hcb : c = '}' := by simpa using hc4
          exact Or.inr (Or.inl hcb)
  rcases hcchar with rfl | rfl | rfl | hh
  · exact ⟨rfl, by decide, by decide⟩
  · exact ⟨rfl, by decide, by decide⟩
  · exact ⟨rfl, by decide, by decide⟩
  · exact ⟨(hexChar_facts hh).1, (hexChar_facts hh).2.1, (hexChar_facts hh).2.2.1⟩

/-- A valid identifier part is non-empty. -/
theorem validId_ne_nil {p : List Char} (hp : ValidIdPart p) : p ≠ [] := by
  obtain ⟨core, hshape, hform⟩ := hp
  rcases hform with rfl | rfl
  · exact guidShape_ne_nil hshape
  · exact List.cons_ne_nil _ _

/-- Stripping braces from a valid identifier part recovers its core. -/
theorem validId_strip {p core : List Char} (hshape : guidShape core = true)
    (hform : p = core ∨ p = '{' :: (core ++ ['}'])) : stripBraces p = core := by
  have hcore_nb : ∀ c ∈ core, notBrace c = true := by
    intro c hc
    rcases guidShape_chars hshape c hc with rfl | h
    · rfl
    · exact (hexChar_facts h).2.2.2
  rcases hform with rfl | rfl
  · exact List.filter_eq_self.mpr hcore_nb
  · show List.filter notBrace ('{' :: (core ++ ['}'])) = core
    rw [List.filter_cons, if_neg (by decide)]
    rw [List.filter_append]
    rw [List.filter_eq_self.mpr hcore_nb]
    simp [notBrace]

/-- The code-side GUID validation accepts every valid identifier part. -/
theorem isValidGuid_of_valid {p core : List Char} (hshape : guidShape core = true)
    (hform : p = core ∨ p = '{' :: (core ++ ['}'])) :
    isValidGuid ⟨p⟩ = true := by
  unfold isValidGuid
  rw [if_neg ?hne]
  · show guidShape (stripBraces p) = true
    rw [validId_strip hshape hform]
    exact hshape
  case hne =>
    intro heq
    have hdata : p = [] := congrArg String.data heq
    exact validId_ne_nil ⟨core, hshape, hform⟩ hdata

/-- A colon-free segment is dropped (`continue`). -/
theorem parseEntryL_no_colon {e : List Char} (h : ':' ∉ e) : parseEntryL e = none := by
  unfold parseEntryL
  rw [splitAtFirstColon_none h]

/-- An all-whitespace segment is dropped. -/
theorem parseEntryL_all_ws {e : List Char} (h : ∀ c ∈ e, jsWs c = true) :
    parseEntryL e = none := by
  apply parseEntryL_no_colon
  intro hc
  have := h ':' hc
  exact absurd this (by decide)

/-- A segment whose identifier fails the GUID grammar or whose type trims to
empty is silently dropped. -/
theorem parseEntryL_drop {pre post : List Char} (h : ':' ∉ pre)
    (hbad : isValidGuid ⟨trimL pre⟩ = false ∨ trimL post = []) :
    parseEntryL (pre ++ ':' :: post) = none := by
  unfold parseEntryL
  rw [splitAtFirstColon_append _ h]
  dsimp only
  rw [if_neg ?hcond]
  case hcond =>
    intro hcond
    simp only [Bool.and_eq_true, decide_eq_true_eq] at hcond
    rcases hbad with hb | hb
    · rw [hb] at hcond
      exact Bool.noConfusion hcond.1
    · rw [hb] at hcond
      exact absurd hcond.2 (by decide)

/-- Pre-filtering by a predicate that only discards `none`-mapped elements
does not change a `filterMap`. -/
theorem filterMap_filter_absorb {α β : Type} (f : α → Option β) (pB : α → Bool)
    (l : List α) (h : ∀ x ∈ l, pB x = false → f x = none) :
    (l.filter pB).filterMap f = l.filterMap f := by
  induction l with
  | nil => rfl
  | cons a t ih =>
    have iht := ih fun x hx => h x (List.mem_cons_of_mem _ hx)
    rw [List.filter_cons]
    cases hpa : pB a with
    | true =>
      rw [if_pos (by simp [hpa])]
      cases hfa : f a with
      | none => rw [List.filterMap_cons_none hfa, List.filterMap_cons_none hfa, iht]
      | some b => rw [List.filterMap_cons_some hfa, List.filterMap_cons_some hfa, iht]
    | false =>
      rw [if_neg (by simp [hpa])]
      rw [List.filterMap_cons_none (h a (List.mem_cons_self _ _) hpa), iht]

/-- A `filterMap` that always succeeds is a `map`. -/
theorem filterMap_congr_map {α β : Type} (f : α → Option β) (g : α → β)
    (l : List α) (h : ∀ x ∈ l, f x = some (g x)) : l.filterMap f = l.map g := by
  induction l with
  | nil => rfl
  | cons a t ih =>
    rw [List.filterMap_cons_some (h a (List.mem_cons_self _ _)), List.map_cons,
      ih fun x hx => h x (List.mem_cons_of_mem _ hx)]

/-- A valid segment is kept and canonicalized: first-colon split, identifier
normalized (braces stripped, lowercased), type lowercased. -/
theorem parseEntryL_valid {g t : List Char} (hg : ValidIdPart g) (ht : ValidTypePart t) :
    parseEntryL (g ++ ':' :: t) = some ⟨⟨normalizeL g⟩, ⟨lowerL t⟩⟩ := by
  obtain ⟨core, hshape, hform⟩ := hg
  have hnocolon : ':' ∉ g := fun hc =>
    (validId_chars ⟨core, hshape, hform⟩ ':' hc).2.2 rfl
  have htrimg : trimL g = g :=
    trimL_eq_self fun c hc => (validId_chars ⟨core, hshape, hform⟩ c hc).1
  have htrimt : trimL t = t := trimL_eq_self fun c hc => (ht.2 c hc).1
  unfold parseEntryL
  rw [splitAtFirstColon_append _ hnocolon]
  dsimp only
  rw [htrimg, htrimt]
  rw [if_pos ?hcond]
  · have hg_ne : (⟨g⟩ : String) ≠ "" := fun he =>
      validId_ne_nil ⟨core, hshape, hform⟩ (congrArg String.data he)
    have h1 : normalizeGuid ⟨g⟩ = ⟨normalizeL g⟩ := by
      unfold normalizeGuid
      rw [if_neg hg_ne]
    rw [h1]
    rfl
  case hcond =>
    simp [isValidGuid_of_valid hshape hform, String.length, List.length_pos, ht.1]

/-- `parseBoundValue` of a join of `;`-free segments is exactly the segmentwise
`filterMap` of the per-segment parser: order preserved, no deduplication,
invalid segments silently dropped. -/
theorem parse_join (parts : List (List Char)) (h : ∀ p ∈ parts, ';' ∉ p) :
    parseBoundValue ⟨joinSep ';' parts⟩ = parts.filterMap parseEntryL := by
  cases parts with
  | nil => rfl
  | cons p0 rest =>
    by_cases hall : trimL (joinSep ';' (p0 :: rest)) = []
    · unfold parseBoundValue
      dsimp only
      rw [if_pos hall]
      symm
      rw [List.filterMap_eq_nil_iff]
      intro p hp
      apply parseEntryL_all_ws
      intro c hc
      exact all_ws_of_trimL_eq_nil hall c (mem_joinSep hp hc)
    · unfold parseBoundValue
      dsimp only
      rw [if_neg hall]
      rw [splitSep_joinSep (List.cons_ne_nil _ _) h]
      apply filterMap_filter_absorb
      intro x hx hpx
      apply parseEntryL_all_ws
      intro c hc
      refine all_ws_of_trimL_eq_nil ?_ c hc
      simpa using hpx

/-- C8: `parseBoundValue` of the empty string is empty; on any `;`-join of
segments it is the segmentwise `filterMap` of the per-segment parser (so
output order matches input order, empty segments are discarded and nothing is
deduplicated); a segment without a colon, with a grammar-invalid identifier,
or with an empty (after trim) type is silently dropped — the parser is total
and never raises; a kept segment is split at its FIRST colon and emitted with
the normalized (lowercased, brace-stripped) identifier and lowercased type. -/
theorem c8_parse_characterization :
    parseBoundValue "" = []
    ∧ (∀ parts : List (List Char), (∀ p ∈ parts, ';' ∉ p) →
        parseBoundValue ⟨joinSep ';' parts⟩ = parts.filterMap parseEntryL)
    ∧ (∀ e : List Char, ':' ∉ e → parseEntryL e = none)
    ∧ (∀ pre post : List Char, ':' ∉ pre →
        (isValidGuid ⟨trimL pre⟩ = false ∨ trimL post = []) →
        parseEntryL (pre ++ ':' :: post) = none)
    ∧ (∀ pre post : List Char, ':' ∉ pre → isValidGuid ⟨trimL pre⟩ = true →
        trimL post ≠ [] →
        parseEntryL (pre ++ ':' :: post) =
          some ⟨normalizeGuid ⟨trimL pre⟩, toLowerS ⟨trimL post⟩⟩) := by
  refine ⟨rfl, parse_join, fun e he => parseEntryL_no_colon he,
    fun pre post h1 h2 => parseEntryL_drop h1 h2, ?_⟩
  intro pre post hnc hok hne
  unfold parseEntryL
  rw [splitAtFirstColon_append _ hnc]
  dsimp only
  rw [if_pos ?hcond]
  case hcond =>
    simp [hok, String.length, List.length_pos, hne]

/-- C8, witness: the join of three segments — one valid brace-wrapped
uppercase, one colon-free, one valid lowercase — parses to the two
canonicalized entries in order. -/
theorem c8_parse_characterization_witness :
    (∀ p ∈ [('{' :: ("AAAAAAAA-AAAA-AAAA-AAAA-AAAAAAAAAAAA".data ++ ['}'])) ++
          ':' :: "Account".data,
        "not-a-guid".data,
        "bbbbbbbb-bbbb-bbbb-bbbb-bbbbbbbbbbbb".data ++ ':' :: "contact".data],
      ';' ∉ p)
    ∧ parseBoundValue ⟨joinSep ';'
        [('{' :: ("AAAAAAAA-AAAA-AAAA-AAAA-AAAAAAAAAAAA".data ++ ['}'])) ++
          ':' :: "Account".data,
         "not-a-guid".data,
         "bbbbbbbb-bbbb-bbbb-bbbb-bbbbbbbbbbbb".data ++ ':' :: "contact".data]⟩ =
      [{ id := "aaaaaaaa-aaaa-aaaa-aaaa-aaaaaaaaaaaa", table := "account" },
       { id := "bbbbbbbb-bbbb-bbbb-bbbb-bbbbbbbbbbbb", table := "contact" }] := by
  constructor
  · decide
  · rw [c8_parse_characterization.2.1 _ (by decide)]
    decide

/-- C2: for every valid bound string — a `;`-join of segments each made of a
grammar-valid, optionally brace-wrapped 8-4-4-4-12 hex identifier, a `:`, and
a non-empty type token — parsing yields one entry per segment with the
identifier lowercased and brace-stripped and the type lowercased, in order,
and serializing those entries (with any display names attached) round-trips
the whole string modulo exactly that canonicalization. -/
theorem c2_serialize_parse_roundtrip (parts : List (List Char × List Char))
    (h : ∀ p ∈ parts, ValidIdPart p.1 ∧ ValidTypePart p.2) (displayName : String) :
    parseBoundValue ⟨joinSep ';' (parts.map fun p => p.1 ++ ':' :: p.2)⟩ =
      parts.map (fun p => ⟨⟨normalizeL p.1⟩, ⟨lowerL p.2⟩⟩)
    ∧ serializeToBoundValue
        ((parseBoundValue ⟨joinSep ';' (parts.map fun p => p.1 ++ ':' :: p.2)⟩).map
          fun r => { id := r.id, table := r.table, name := displayName }) =
      ⟨joinSep ';' (parts.map fun p => normalizeL p.1 ++ ':' :: lowerL p.2)⟩ := by
  have hseg : ∀ q ∈ parts.map (fun p => p.1 ++ ':' :: p.2), ';' ∉ q := by
    intro q hq
    obtain ⟨p, hp, rfl⟩ := List.mem_map.mp hq
    intro hsemi
    rcases List.mem_append.mp hsemi with h1 | h2
    · exact ((validId_chars (h p hp).1 ';' h1).2.1) rfl
    · rcases List.mem_cons.mp h2 with hc | hc
      · exact absurd hc (by decide)
      · exact ((h p hp).2.2 ';' hc).2 rfl
  have hparse : parseBoundValue ⟨joinSep ';' (parts.map fun p => p.1 ++ ':' :: p.2)⟩ =
      parts.map (fun p => ⟨⟨normalizeL p.1⟩, ⟨lowerL p.2⟩⟩) := by
    rw [parse_join _ hseg, List.filterMap_map]
    apply filterMap_congr_map
    intro p hp
    show parseEntryL (p.1 ++ ':' :: p.2) = _
    exact parseEntryL_valid (h p hp).1 (h p hp).2
  refine ⟨hparse, ?_⟩
  rw [hparse]
  cases parts with
  | nil => rfl
  | cons q qs =>
    unfold serializeToBoundValue
    rw [if_neg (by simp)]
    show String.mk _ = String.mk _
    apply congrArg
    apply congrArg
    rw [List.map_map, List.map_map]
    apply List.map_congr_left
    intro p hp
    show (normalizeGuid ⟨normalizeL p.1⟩).data ++ ':' :: (toLowerS ⟨lowerL p.2⟩).data =
      normalizeL p.1 ++ ':' :: lowerL p.2
    rw [normalizeGuid_data]
    show normalizeL (normalizeL p.1) ++ ':' :: lowerL (lowerL p.2) =
      normalizeL p.1 ++ ':' :: lowerL p.2
    rw [normalizeL_idem, lowerL_idem]

/-- C2, witness: the spec's two-segment example round-trips. -/
theorem c2_serialize_parse_roundtrip_witness :
    parseBoundValue ⟨joinSep ';'
        ([(('{' :: ("AAAAAAAA-AAAA-AAAA-AAAA-AAAAAAAAAAAA".data ++ ['}'])),
            "Account".data),
          ("bbbbbbbb-bbbb-bbbb-bbbb-bbbbbbbbbbbb".data, "contact".data)].map
          fun p => p.1 ++ ':' :: p.2)⟩ =
      [{ id := "aaaaaaaa-aaaa-aaaa-aaaa-aaaaaaaaaaaa", table := "account" },
       { id := "bbbbbbbb-bbbb-bbbb-bbbb-bbbbbbbbbbbb", table := "contact" }]
    ∧ serializeToBoundValue
        ((parseBoundValue ⟨joinSep ';'
          ([(('{' :: ("AAAAAAAA-AAAA-AAAA-AAAA-AAAAAAAAAAAA".data ++ ['}'])),
              "Account".data),
            ("bbbbbbbb-bbbb-bbbb-bbbb-bbbbbbbbbbbb".data, "contact".data)].map
            fun p => p.1 ++ ':' :: p.2)⟩).map
          fun r => { id := r.id, table := r.table, name := "Jane Doe" }) =
      "aaaaaaaa-aaaa-aaaa-aaaa-aaaaaaaaaaaa:account;bbbbbbbb-bbbb-bbbb-bbbb-bbbbbbbbbbbb:contact" := by
  have hvalid : ∀ p ∈ [(('{' :: ("AAAAAAAA-AAAA-AAAA-AAAA-AAAAAAAAAAAA".data ++ ['}'])),
        "Account".data),
      ("bbbbbbbb-bbbb-bbbb-bbbb-bbbbbbbbbbbb".data, "contact".data)],
      ValidIdPart p.1 ∧ ValidTypePart p.2 := by
    intro p hp
    rcases List.mem_cons.mp hp with rfl | hp2
    · exact ⟨⟨"AAAAAAAA-AAAA-AAAA-AAAA-AAAAAAAAAAAA".data, by decide, Or.inr rfl⟩,
        ⟨by decide, by decide⟩⟩
    · have hp3 : p = ("bbbbbbbb-bbbb-bbbb-bbbb-bbbbbbbbbbbb".data, "contact".data) := by
        simpa using hp2
      subst hp3
      exact ⟨⟨"bbbbbbbb-bbbb-bbbb-bbbb-bbbbbbbbbbbb".data, by decide, Or.inl rfl⟩,
        ⟨by decide, by decide⟩⟩
  have h := c2_serialize_parse_roundtrip _ hvalid "Jane Doe"
  constructor
  · rw [h.1]
    decide
  · rw [h.2]
    decide

/-- C10, witness: a brace-wrapped uppercase variant of an id removes the same
entry as the bare lowercase id. -/
theorem c10_removeRecordById_spec_witness :
    normalizeGuid ⟨'{' :: ("44444444-4444-4444-4444-444444444444".data ++ ['}'])⟩ =
      normalizeGuid "44444444-4444-4444-4444-444444444444"
    ∧ removeRecordById ⟨'{' :: ("44444444-4444-4444-4444-444444444444".data ++ ['}'])⟩
        [{ id := "44444444-4444-4444-4444-444444444444", table := "account", name := "Acme" }] =
      removeRecordById "44444444-4444-4444-4444-444444444444"
        [{ id := "44444444-4444-4444-4444-444444444444", table := "account", name := "Acme" }] :=
  ⟨by decide,
    (c10_removeRecordById_spec "44444444-4444-4444-4444-444444444444"
      [{ id := "44444444-4444-4444-4444-444444444444", table := "account", name := "Acme" }]).2.2
      ⟨'{' :: ("44444444-4444-4444-4444-444444444444".data ++ ['}'])⟩ (by decide)⟩
